import Mathlib

/-!
Shallow embedding of the SpeechToText frontend's transcript pipeline:

* the live-streaming WebSocket message handler (`ws.onmessage`) and its
  aggregation of realtime events into finalized transcript segments,
* the PCM16 audio encoder (`processor.onaudioprocess`),
* `stopStreaming` and the component state it resets,
* `groupConsecutiveSpeakers` and `getSpeakerColor` from `TranscriptDisplay.jsx`,
* `mergeAllSpeakers` from the file-upload component,
* the backend speaker-merge heuristic (modelled from the spec, the backend
  source file is not part of the provided sources).

Machine-level JS details (32-bit wrap of `<<`, falsiness of the empty string
in `||`, truncation when storing into an `Int16Array`) are made explicit.
-/

namespace SpeechToText

/-- A finalized transcript segment as built in `ws.onmessage`:
`id` is `data.item_id || Date.now()` (a string, or a clock reading when the
string id is absent or empty), `timestamp` stands for the wall-clock reading
rendered by `new Date().toLocaleTimeString()`. -/
structure TranscriptSegment where
  id : Sum String Nat
  speaker : String
  text : String
  timestamp : Nat
deriving DecidableEq, Repr

/-- The React state of the live-streaming component: `isStreaming`,
`transcripts`, `partialTranscript`, `error`, `status`. -/
structure LiveState where
  isStreaming : Bool
  transcripts : List TranscriptSegment
  partialTranscript : String
  error : Option String
  status : String
deriving DecidableEq, Repr

/-- The upstream event variants handled by `ws.onmessage`, one constructor per
`data.type` branch; `sessionEvent` covers `session.created`/`session.updated`
and `unknownEvent` the fall-through (including parse failures, which leave the
state untouched). Optional payload fields model absent JSON fields. -/
inductive RealtimeEvent where
  | inputDelta (delta : Option String)
  | inputCompleted (transcript : Option String) (itemId : Option String)
  | responseTextDelta (delta : Option String)
  | responseTextDone (text : Option String) (responseId : Option String)
  | audioTranscriptDelta (delta : Option String)
  | audioTranscriptDone (transcript : Option String) (itemId : Option String)
  | errorEvent (message : String)
  | sessionEvent
  | unknownEvent
deriving DecidableEq, Repr

/-- JS `id || Date.now()`: a missing or empty string id is falsy and falls
back to the clock reading. -/
def jsIdOr (o : Option String) (t : Nat) : Sum String Nat :=
  match o with
  | some s => if s = "" then Sum.inr t else Sum.inl s
  | none => Sum.inr t

/-- JS `field || ""` for an optional string payload. -/
def jsStrOr (o : Option String) : String := o.getD ""

/-- The body of `ws.onmessage` acting on the component state, given the event
and the wall-clock reading `t` at processing time.  Deltas append to the
partial transcript; completed/done events with a non-empty final text append a
finalized segment (final text authoritative, not the concatenated deltas) and
clear the partial; an empty final text leaves the state untouched; `error`
only records the message. -/
def wsOnMessage (s : LiveState) (e : RealtimeEvent) (t : Nat) : LiveState :=
  match e with
  | .inputDelta d => { s with partialTranscript := s.partialTranscript ++ jsStrOr d }
  | .inputCompleted tr itemId =>
      let finalText := jsStrOr tr
      if finalText = "" then s
      else
        { s with
          transcripts := s.transcripts ++
            [{ id := jsIdOr itemId t, speaker := "You", text := finalText, timestamp := t }]
          partialTranscript := "" }
  | .responseTextDelta d => { s with partialTranscript := s.partialTranscript ++ jsStrOr d }
  | .responseTextDone txt responseId =>
      let finalText := jsStrOr txt
      if finalText = "" then s
      else
        { s with
          transcripts := s.transcripts ++
            [{ id := jsIdOr responseId t, speaker := "Assistant", text := finalText,
               timestamp := t }]
          partialTranscript := "" }
  | .audioTranscriptDelta d => { s with partialTranscript := s.partialTranscript ++ jsStrOr d }
  | .audioTranscriptDone tr itemId =>
      let finalText := jsStrOr tr
      if finalText = "" then s
      else
        { s with
          transcripts := s.transcripts ++
            [{ id := jsIdOr itemId t, speaker := "Assistant", text := finalText,
               timestamp := t }]
          partialTranscript := "" }
  | .errorEvent m => { s with error := some m }
  | .sessionEvent => s
  | .unknownEvent => s

/-- Fold `ws.onmessage` over an arrival-ordered list of events, each paired
with the wall-clock reading at its processing time. -/
def runEvents (s : LiveState) (l : List (RealtimeEvent × Nat)) : LiveState :=
  l.foldl (fun st p => wsOnMessage st p.1 p.2) s

/-- The component state right after `ws.onopen`: no transcripts, empty
partial, streaming. -/
def initialLiveState : LiveState :=
  { isStreaming := true, transcripts := [], partialTranscript := "", error := none,
    status := "🔴 Live - Speaking..." }

/-- `stopStreaming`: closes the transport and audio resources (outside this
state model) and then resets the session state fields it touches. -/
def stopStreaming (s : LiveState) : LiveState :=
  { s with isStreaming := false, partialTranscript := "", status := "Stopped" }

/-- `clearTranscripts` (kept for completeness of the state model). -/
def clearTranscripts (s : LiveState) : LiveState :=
  { s with transcripts := [], partialTranscript := "", status := "Ready" }

/-! ### Audio encoding (`processor.onaudioprocess`) -/

/-- `Math.max(-1, Math.min(1, x))`. -/
def clampSample (x : ℚ) : ℚ := max (-1) (min 1 x)

/-- Truncation toward zero, as JS applies when a number is stored into an
`Int16Array` (`ToIntegerOrInfinity`). -/
def truncToInt (q : ℚ) : ℤ := if q < 0 then ⌈q⌉ else ⌊q⌋

/-- One sample of the PCM16 conversion:
`const s = Math.max(-1, Math.min(1, float32[i])); pcm16[i] = s < 0 ? s * 0x8000 : s * 0x7fff;` -/
def encodeSample (x : ℚ) : ℤ :=
  if clampSample x < 0 then truncToInt (clampSample x * 32768)
  else truncToInt (clampSample x * 32767)

/-- One input block becomes one PCM16 frame of the same length, samples in
order. -/
def encodeBlock (b : List ℚ) : List ℤ := b.map encodeSample

/-- WebSocket.OPEN. -/
def wsOPEN : Nat := 1

/-- The `onaudioprocess` handler over a sequence of input blocks, each paired
with `ws.readyState` at the moment the block arrives: a block is encoded and
sent only when the socket is open, otherwise nothing happens (the block is
discarded, never buffered).  Returns the frames sent, in order. -/
def onAudioProcess (l : List (List ℚ × Nat)) : List (List ℤ) :=
  l.foldl (fun sent p => if p.2 = wsOPEN then sent ++ [encodeBlock p.1] else sent) []

/-! ### `TranscriptDisplay.jsx`: speaker colors -/

/-- The six-entry speaker color palette. -/
def SPEAKER_COLORS : List String :=
  ["#4ea8de", "#9d4edd", "#faa307", "#38b000", "#e63946", "#06ffa5"]

/-- JS `ToInt32`: wrap into `[-2^31, 2^31)`. -/
def toInt32 (n : ℤ) : ℤ := (n + 2 ^ 31) % 2 ^ 32 - 2 ^ 31

/-- One step of the reduce in `getSpeakerColor`:
`char.charCodeAt(0) + ((acc << 5) - acc)`; the shift coerces `acc` to 32 bits
and wraps, the surrounding additions are exact. -/
def hashStep (acc : ℤ) (c : Char) : ℤ := (c.toNat : ℤ) + (toInt32 (32 * acc) - acc)

/-- `speaker.split("").reduce(..., 0)`. -/
def speakerHash (s : String) : ℤ := s.toList.foldl hashStep 0

/-- `SPEAKER_COLORS[Math.abs(hash) % SPEAKER_COLORS.length]` (an out-of-range
index would be JS `undefined`, modelled by the empty default). -/
def getSpeakerColor (s : String) : String :=
  SPEAKER_COLORS.getD ((speakerHash s).natAbs % SPEAKER_COLORS.length) ""

/-! ### `TranscriptDisplay.jsx`: `groupConsecutiveSpeakers`

The JS function mutates a `current` group object that may already have been
pushed into the `grouped` array; pushed entries are references, so later
mutations (and re-pushes of the same object) are visible in the result.  The
embedding makes object identity explicit: `objs` is the store of group
objects, `done` the list of object ids pushed to `grouped`, `cur` the id of
the object the `current` variable points to. -/

/-- An input item of `groupConsecutiveSpeakers` with the fields the function
reads or copies: `timestamp`, `start_time`, `end`, `end_time` are the
possibly-absent time fields (`endVal` embeds the JS field named `end`). -/
structure DispItem where
  id : Nat
  speaker : String
  text : String
  timestamp : Option Nat
  start_time : Option Nat
  endVal : Option Nat
  end_time : Option Nat
  isPartial : Bool
deriving DecidableEq, Repr

/-- A group produced by `groupConsecutiveSpeakers`. -/
structure TGroup where
  id : Nat
  speaker : String
  text : String
  startTime : Option Nat
  endTime : Option Nat
  isPartialFlag : Bool
  segments : List DispItem
deriving DecidableEq, Repr

/-- JS `a || b` on possibly-absent values. -/
def jsOr (a b : Option Nat) : Option Nat :=
  match a with
  | some x => some x
  | none => b

/-- A fresh group object built from one item, as in the object literals of the
source. -/
def mkGroup (it : DispItem) : TGroup :=
  { id := it.id, speaker := it.speaker, text := it.text,
    startTime := jsOr it.timestamp it.start_time,
    endTime := jsOr it.endVal it.end_time,
    isPartialFlag := it.isPartial, segments := [it] }

/-- Placeholder group for out-of-store lookups (never reached on the real
control flow). -/
def dummyGroup : TGroup :=
  { id := 0, speaker := "", text := "", startTime := none, endTime := none,
    isPartialFlag := false, segments := [] }

/-- One loop iteration of `groupConsecutiveSpeakers` over state
`(objs, done, cur)`. -/
def groupStep (st : List TGroup × List Nat × Nat) (it : DispItem) :
    List TGroup × List Nat × Nat :=
  let objs := st.1
  let done := st.2.1
  let cur := st.2.2
  let curObj := objs.getD cur dummyGroup
  if it.isPartial then
    -- push current (if nonempty), then push a fresh partial group;
    -- `current` keeps pointing at the already-pushed object
    let done1 := if 0 < curObj.segments.length then done ++ [cur] else done
    (objs ++ [mkGroup it], done1 ++ [objs.length], cur)
  else if it.speaker = curObj.speaker ∧ curObj.isPartialFlag = false then
    -- mutate the object `current` points to (also if it is already pushed)
    let merged :=
      { curObj with
        text := curObj.text ++ " " ++ it.text,
        endTime := jsOr it.endVal it.end_time,
        segments := curObj.segments ++ [it] }
    (objs.set cur merged, done, cur)
  else
    -- push current, then rebind `current` to a fresh group
    (objs ++ [mkGroup it], done ++ [cur], objs.length)

/-- `groupConsecutiveSpeakers`: returns the pushed groups in push order, each
reference materialized to the final state of the object it points to. -/
def groupConsecutiveSpeakers (transcripts : List DispItem) : List TGroup :=
  match transcripts with
  | [] => []
  | t0 :: rest =>
    let st := rest.foldl groupStep ([mkGroup t0], ([] : List Nat), 0)
    let objs := st.1
    let done := st.2.1
    let cur := st.2.2
    let done2 :=
      if 0 < (objs.getD cur dummyGroup).segments.length then done ++ [cur] else done
    done2.map (fun i => objs.getD i dummyGroup)

/-! ### File-upload component (`FileTranscription`) -/

/-- One transcript row of the file-upload result set
(`{id, speaker, text, timestamp, end}`). -/
structure FileSegment where
  id : Nat
  speaker : String
  text : String
  timestamp : Option ℚ
  endVal : Option ℚ
deriving DecidableEq, Repr

/-- The `result` state of the file-upload component (the fields the merge
override reads or preserves). -/
structure FileResult where
  transcripts : List FileSegment
  summary : Option String
  fullText : Option String
  duration : Option ℚ
  speakerCount : Nat
deriving DecidableEq, Repr

/-- `mergeAllSpeakers` on a present result: spread each row with
`speaker: "Speaker 1"`, spread the result with the merged rows and
`speakerCount: 1`. -/
def mergeAllSpeakers (r : FileResult) : FileResult :=
  { r with
    transcripts := r.transcripts.map (fun t => { t with speaker := "Speaker 1" }),
    speakerCount := 1 }

/-- The click handler including the `if (!result) return;` guard. -/
def mergeAllSpeakersClick (r : Option FileResult) : Option FileResult :=
  match r with
  | none => none
  | some res => some (mergeAllSpeakers res)

/-! ### Backend speaker-merge heuristic -/

/-- One diarized segment as returned by the batch backend. -/
structure DiarSegment where
  speaker : String
  text : String
  start_time : ℚ
  end_time : ℚ
deriving DecidableEq, Repr

/-- Modelled from the spec: the 40% transition-rate threshold of
`merge_similar_speakers` in the backend `server.py`, which is not among the
provided source files ("a tunable constant ... a named configuration
constant"). -/
def mergeThreshold : ℚ := 2 / 5

/-- Modelled from the spec: the number of adjacent pairs whose speaker labels
differ ("transitions") in `merge_similar_speakers` of the missing backend
`server.py`. -/
def transitionCount (l : List DiarSegment) : Nat :=
  (l.zip l.tail).countP (fun p => p.1.speaker ≠ p.2.speaker)

/-- Modelled from the spec: the transition rate `r = t / max(n-1, 1)` of
`merge_similar_speakers` in the missing backend `server.py`. -/
def transitionRate (l : List DiarSegment) : ℚ :=
  (transitionCount l : ℚ) / (max (l.length - 1) 1 : Nat)

/-- Modelled from the spec: `merge_similar_speakers` of the missing backend
`server.py` — if `n ≥ 2` and the transition rate exceeds the 40% threshold,
relabel every segment's speaker to "Speaker 1"; otherwise leave the list
unchanged. -/
def mergeSimilarSpeakers (l : List DiarSegment) : List DiarSegment :=
  if 2 ≤ l.length ∧ mergeThreshold < transitionRate l then
    l.map (fun s => { s with speaker := "Speaker 1" })
  else l

/-! ## Concrete inputs used by evaluations and witnesses -/

/-- A finalized live segment, as produced by a completed input transcription. -/
def liveSeg : DispItem := ⟨0, "You", "hello", some 10, none, none, none, false⟩

/-- The provisional display item appended by the live component while
streaming (`id: "partial"` is modelled by a fresh numeric id). -/
def liveProvisional : DispItem := ⟨1, "Speaking...", "hi", some 11, none, none, none, true⟩

/-- A diarized segment carrying only a speaker label. -/
def labelOnly (sp : String) : DiarSegment := ⟨sp, "", 0, 0⟩

/-! ## Aggregator helper functions and lemmas -/

/-- Whether an event is of the finalizing kind (`Completed`/`ResponseDone`,
i.e. the `...completed` and `...done` message types). -/
def isFinalizeEvent : RealtimeEvent → Bool
  | .inputCompleted _ _ => true
  | .responseTextDone _ _ => true
  | .audioTranscriptDone _ _ => true
  | _ => false

/-- The (speaker, final text) a finalizing event contributes, or `none` for a
non-finalizing event or an empty final text. -/
def finalProj : RealtimeEvent → Option (String × String)
  | .inputCompleted tr _ => if jsStrOr tr = "" then none else some ("You", jsStrOr tr)
  | .responseTextDone txt _ => if jsStrOr txt = "" then none else some ("Assistant", jsStrOr txt)
  | .audioTranscriptDone tr _ => if jsStrOr tr = "" then none else some ("Assistant", jsStrOr tr)
  | _ => none

lemma wsOnMessage_speakerText (s : LiveState) (e : RealtimeEvent) (t : Nat) :
    (wsOnMessage s e t).transcripts.map (fun g => (g.speaker, g.text))
      = s.transcripts.map (fun g => (g.speaker, g.text)) ++ (finalProj e).toList := by
  cases e <;> simp only [wsOnMessage, finalProj] <;>
    first
      | simp
      | (split <;> simp)

lemma runEvents_speakerText (l : List (RealtimeEvent × Nat)) (s : LiveState) :
    (runEvents s l).transcripts.map (fun g => (g.speaker, g.text))
      = s.transcripts.map (fun g => (g.speaker, g.text))
        ++ l.filterMap (fun p => finalProj p.1) := by
  induction l generalizing s with
  | nil => simp [runEvents]
  | cons p rest ih =>
    have h1 := wsOnMessage_speakerText s p.1 p.2
    have h2 := ih (wsOnMessage s p.1 p.2)
    simp only [runEvents, List.foldl_cons] at h2 ⊢
    rw [h2, h1]
    cases hfp : finalProj p.1 <;> simp [hfp, List.filterMap_cons]

lemma length_filterMap_eq_countP {α β : Type} (f : α → Option β) (l : List α) :
    (l.filterMap f).length = l.countP (fun a => (f a).isSome) := by
  induction l with
  | nil => rfl
  | cons a rest ih =>
    rw [List.filterMap_cons, List.countP_cons]
    cases h : f a <;> simp [h, ih]

/-! ## Encoder helper lemmas -/

lemma neg_one_le_clampSample (q : ℚ) : -1 ≤ clampSample q := le_max_left _ _

lemma clampSample_le_one (q : ℚ) : clampSample q ≤ 1 :=
  max_le (by norm_num) (min_le_left _ _)

lemma le_truncToInt {a : ℚ} {z : ℤ} (h : (z : ℚ) ≤ a) : z ≤ truncToInt a := by
  unfold truncToInt
  split
  · have := Int.ceil_mono h
    rwa [Int.ceil_intCast] at this
  · have := Int.floor_mono h
    rwa [Int.floor_intCast] at this

lemma truncToInt_le {a : ℚ} {z : ℤ} (h : a ≤ (z : ℚ)) : truncToInt a ≤ z := by
  unfold truncToInt
  split
  · have := Int.ceil_mono h
    rwa [Int.ceil_intCast] at this
  · have := Int.floor_mono h
    rwa [Int.floor_intCast] at this

lemma countP_bool_split {α : Type} (p : α → Bool) (l : List α) :
    l.countP p + l.countP (fun a => !(p a)) = l.length := by
  induction l with
  | nil => rfl
  | cons a rest ih =>
    rw [List.countP_cons, List.countP_cons]
    cases h : p a <;> simp [h] <;> omega

lemma onAudioProcess_foldl (l : List (List ℚ × Nat)) (acc : List (List ℤ)) :
    l.foldl (fun sent p => if p.2 = wsOPEN then sent ++ [encodeBlock p.1] else sent) acc
      = acc ++ (l.filter (fun p => p.2 == wsOPEN)).map (fun p => encodeBlock p.1) := by
  induction l generalizing acc with
  | nil => simp
  | cons p rest ih =>
    by_cases h : p.2 = wsOPEN
    · simp [h, ih, List.filter_cons]
    · simp [h, ih, List.filter_cons]

/-! ## Theorems -/

/-- C3: the PCM16 encoder emits, for each input block, one frame of the same
length with the samples in order; each sample is clamped to `[-1, 1]` and then
scaled by 32768 when negative and by 32767 when non-negative, so every output
value fits the signed 16-bit range and `+1.0` maps to `32767` (no overflow);
out-of-range inputs saturate at the 16-bit extremes. -/
theorem c3_pcm16_encoding :
    (∀ b : List ℚ, (encodeBlock b).length = b.length ∧ encodeBlock b = b.map encodeSample) ∧
    (∀ q : ℚ, -32768 ≤ encodeSample q ∧ encodeSample q ≤ 32767) ∧
    encodeSample 1 = 32767 ∧
    (∀ q : ℚ, 1 ≤ q → encodeSample q = 32767) ∧
    (∀ q : ℚ, q ≤ -1 → encodeSample q = -32768) := by
  have hi : ∀ q : ℚ, 1 ≤ q → encodeSample q = 32767 := by
    intro q h
    have hcl : clampSample q = 1 := by
      rw [clampSample, min_eq_left h, max_eq_right (by norm_num : (-1 : ℚ) ≤ 1)]
    rw [encodeSample, hcl, if_neg (by norm_num),
      show ((1 : ℚ) * 32767) = ((32767 : ℤ) : ℚ) by norm_num, truncToInt,
      if_neg (by push_cast; norm_num), Int.floor_intCast]
  have lo : ∀ q : ℚ, q ≤ -1 → encodeSample q = -32768 := by
    intro q h
    have hcl : clampSample q = -1 := by
      rw [clampSample, min_eq_right (le_trans h (by norm_num)), max_eq_left h]
    rw [encodeSample, hcl, if_pos (by norm_num),
      show ((-1 : ℚ) * 32768) = ((-32768 : ℤ) : ℚ) by norm_num, truncToInt,
      if_pos (by push_cast; norm_num), Int.ceil_intCast]
  refine ⟨fun b => ⟨List.length_map b encodeSample, rfl⟩, ?_, hi 1 le_rfl, hi, lo⟩
  intro q
  have hc1 := neg_one_le_clampSample q
  have hc2 := clampSample_le_one q
  rw [encodeSample]
  split
  next hs =>
    constructor
    · exact le_truncToInt (by push_cast; nlinarith)
    · exact truncToInt_le (by push_cast; nlinarith)
  next hs =>
    have hs' : 0 ≤ clampSample q := not_lt.mp hs
    constructor
    · exact le_truncToInt (by push_cast; nlinarith)
    · exact truncToInt_le (by push_cast; nlinarith)

/-- C3 witness: an in-range, an overflowing and an underflowing sample are
encoded within the 16-bit range and saturate as stated. -/
theorem c3_pcm16_encoding_witness :
    ((1 : ℚ) ≤ (3 : ℚ) / 2 ∧ encodeSample ((3 : ℚ) / 2) = 32767) ∧
    ((-2 : ℚ) ≤ -1 ∧ encodeSample (-2 : ℚ) = -32768) ∧
    (-32768 ≤ encodeSample ((1 : ℚ) / 2) ∧ encodeSample ((1 : ℚ) / 2) ≤ 32767) :=
  ⟨⟨by norm_num, c3_pcm16_encoding.2.2.2.1 _ (by norm_num)⟩,
   ⟨by norm_num, c3_pcm16_encoding.2.2.2.2 _ (by norm_num)⟩,
   c3_pcm16_encoding.2.1 _⟩

/-- C5: a block arriving while the socket is not open is discarded, never
buffered — the emitted frames are exactly the encodings of the blocks that
arrived while the socket was open, in order — so the output frame count
equals the input block count minus the number of dropped blocks, and when
every input block has the configured size each emitted frame has that many
samples. -/
theorem c5_dropped_frames :
    (∀ l : List (List ℚ × Nat),
      onAudioProcess l = (l.filter (fun p => p.2 == wsOPEN)).map (fun p => encodeBlock p.1)) ∧
    (∀ l : List (List ℚ × Nat),
      (onAudioProcess l).length = l.length - l.countP (fun p => !(p.2 == wsOPEN))) ∧
    (∀ (l : List (List ℚ × Nat)) (N : Nat),
      (∀ b ∈ l, b.1.length = N) → ∀ f ∈ onAudioProcess l, f.length = N) := by
  have hfe : ∀ l : List (List ℚ × Nat),
      onAudioProcess l = (l.filter (fun p => p.2 == wsOPEN)).map (fun p => encodeBlock p.1) :=
    fun l => (onAudioProcess_foldl l []).trans (List.nil_append _)
  refine ⟨hfe, ?_, ?_⟩
  · intro l
    have hsum := countP_bool_split (fun p : List ℚ × Nat => p.2 == wsOPEN) l
    rw [hfe l, List.length_map, ← List.countP_eq_length_filter]
    omega
  · intro l N hN f hf
    rw [hfe l] at hf
    obtain ⟨b, hb, rfl⟩ := List.mem_map.mp hf
    rw [encodeBlock, List.length_map]
    exact hN b (List.mem_filter.mp hb).1

/-- C5 witness: of two fixed-size blocks, the one arriving on a closed socket
is dropped and every emitted frame keeps the block size. -/
theorem c5_dropped_frames_witness :
    ∀ f ∈ onAudioProcess [([(1 : ℚ), 0], 1), ([(2 : ℚ), 3], 0)], f.length = 2 :=
  c5_dropped_frames.2.2 _ 2 (by decide)

/-- C2 (spec-modelled): the merge heuristic counts the adjacent pairs with
differing speaker labels, computes the rate `t / max(n-1, 1)`, relabels every
segment to "Speaker 1" when `n ≥ 2` and the rate exceeds the 40% threshold,
and otherwise leaves the list unchanged; in particular alternating
`A,B,A,B,A` collapses to five "Speaker 1" labels, `A,A,A,B,B` (rate 25%) is
unchanged, and a single segment is always unchanged. -/
theorem c2_speaker_merge_heuristic :
    (∀ l : List DiarSegment, 2 ≤ l.length → mergeThreshold < transitionRate l →
      mergeSimilarSpeakers l = l.map (fun s => { s with speaker := "Speaker 1" })) ∧
    (∀ l : List DiarSegment, transitionRate l ≤ mergeThreshold →
      mergeSimilarSpeakers l = l) ∧
    (∀ s : DiarSegment, mergeSimilarSpeakers [s] = [s]) ∧
    (mergeSimilarSpeakers [labelOnly "A", labelOnly "B", labelOnly "A", labelOnly "B",
        labelOnly "A"]).map (fun s => s.speaker)
      = ["Speaker 1", "Speaker 1", "Speaker 1", "Speaker 1", "Speaker 1"] ∧
    mergeSimilarSpeakers [labelOnly "A", labelOnly "A", labelOnly "A", labelOnly "B",
        labelOnly "B"]
      = [labelOnly "A", labelOnly "A", labelOnly "A", labelOnly "B", labelOnly "B"] := by
  have hrate1 : transitionRate [labelOnly "A", labelOnly "B", labelOnly "A", labelOnly "B",
      labelOnly "A"] = 1 := by
    rw [transitionRate, show transitionCount [labelOnly "A", labelOnly "B", labelOnly "A",
      labelOnly "B", labelOnly "A"] = 4 from rfl]
    norm_num
  have hrate2 : transitionRate [labelOnly "A", labelOnly "A", labelOnly "A", labelOnly "B",
      labelOnly "B"] = 1 / 4 := by
    rw [transitionRate, show transitionCount [labelOnly "A", labelOnly "A", labelOnly "A",
      labelOnly "B", labelOnly "B"] = 1 from rfl]
    norm_num
  refine ⟨?_, ?_, ?_, ?_, ?_⟩
  · intro l h1 h2
    rw [mergeSimilarSpeakers, if_pos ⟨h1, h2⟩]
  · intro l h
    rw [mergeSimilarSpeakers, if_neg]
    rintro ⟨-, h2⟩
    exact absurd h2 (not_lt.mpr h)
  · intro s
    rw [mergeSimilarSpeakers, if_neg]
    rintro ⟨h1, -⟩
    simp at h1
  · rw [mergeSimilarSpeakers,
      if_pos ⟨by norm_num, by rw [hrate1]; rw [mergeThreshold]; norm_num⟩]
    decide
  · rw [mergeSimilarSpeakers, if_neg]
    rintro ⟨-, h2⟩
    rw [hrate2, mergeThreshold] at h2
    norm_num at h2

/-- C2 witness: the alternating five-segment list has rate 1 > 40% and is
relabeled by the general threshold clause. -/
theorem c2_speaker_merge_heuristic_witness :
    mergeSimilarSpeakers [labelOnly "A", labelOnly "B", labelOnly "A", labelOnly "B",
        labelOnly "A"]
      = [labelOnly "A", labelOnly "B", labelOnly "A", labelOnly "B",
          labelOnly "A"].map (fun s => { s with speaker := "Speaker 1" }) :=
  c2_speaker_merge_heuristic.1 _ (by norm_num)
    (by rw [transitionRate, show transitionCount [labelOnly "A", labelOnly "B", labelOnly "A",
          labelOnly "B", labelOnly "A"] = 4 from rfl, mergeThreshold]; norm_num)

/-- C1 (counterexample): a `Completed` event whose final text field is absent
(or empty) produces no finalized segment — the handler's `if (finalText)`
guard skips it — so the finalized-segment count can be strictly smaller than
the count of `Completed`/`ResponseDone` events. -/
theorem c1_empty_final_text_counterexample :
    (runEvents initialLiveState
        [(RealtimeEvent.inputCompleted none none, 0)]).transcripts.length
      ≠ ([(RealtimeEvent.inputCompleted none none, 0)] :
          List (RealtimeEvent × Nat)).countP (fun p => isFinalizeEvent p.1) := by
  decide

/-- C1 (amended): for every event sequence fed from fresh state, the
finalized segments' texts are exactly the final text fields of the
`Completed`/`ResponseDone` events with a non-empty final text, in arrival
order — the final text is authoritative, never the concatenation of the
prior deltas — and the finalized-segment count equals the count of those
non-empty finalizing events. -/
theorem c1_finalized_texts_amended (l : List (RealtimeEvent × Nat)) :
    (runEvents initialLiveState l).transcripts.map (fun g => g.text)
      = l.filterMap (fun p => (finalProj p.1).map Prod.snd) ∧
    (runEvents initialLiveState l).transcripts.length
      = l.countP (fun p => (finalProj p.1).isSome) := by
  have h := runEvents_speakerText l initialLiveState
  rw [show List.map (fun (g : TranscriptSegment) => (g.speaker, g.text))
        initialLiveState.transcripts = [] from rfl, List.nil_append] at h
  constructor
  · have h2 := congrArg (List.map Prod.snd) h
    rw [List.map_map, List.map_filterMap] at h2
    exact h2
  · have h3 := congrArg List.length h
    rw [List.length_map, length_filterMap_eq_countP] at h3
    exact h3

/-- C4 (counterexample): replaying the same single-event list from fresh
state at a different wall-clock reading yields a different segment sequence —
the fallback identifier (`data.item_id || Date.now()`) and the timestamp
(`new Date().toLocaleTimeString()`) are taken from the clock at processing
time, not from the event. -/
theorem c4_clock_counterexample :
    runEvents initialLiveState [(RealtimeEvent.inputCompleted (some "hi") none, 0)]
      ≠ runEvents initialLiveState [(RealtimeEvent.inputCompleted (some "hi") none, 1)] := by
  decide

/-- C4 (amended): the aggregator is a pure fold — two runs over the same
ordered event list from fresh state yield finalized-segment sequences with
identical speakers, texts and count (no duplication), whatever the clock
readings of each run; only the wall-clock-derived identifier fallbacks and
timestamps may differ between the runs. -/
theorem c4_replay_amended (l₁ l₂ : List (RealtimeEvent × Nat))
    (h : l₁.map Prod.fst = l₂.map Prod.fst) :
    (runEvents initialLiveState l₁).transcripts.map (fun g => (g.speaker, g.text))
      = (runEvents initialLiveState l₂).transcripts.map (fun g => (g.speaker, g.text)) ∧
    (runEvents initialLiveState l₁).transcripts.length
      = (runEvents initialLiveState l₂).transcripts.length := by
  have e1 := runEvents_speakerText l₁ initialLiveState
  have e2 := runEvents_speakerText l₂ initialLiveState
  rw [show List.map (fun (g : TranscriptSegment) => (g.speaker, g.text))
        initialLiveState.transcripts = [] from rfl, List.nil_append] at e1 e2
  have key : l₁.filterMap (fun p => finalProj p.1)
      = l₂.filterMap (fun p => finalProj p.1) := by
    have hc := congrArg (List.filterMap finalProj) h
    rw [List.filterMap_map, List.filterMap_map] at hc
    exact hc
  refine ⟨e1.trans (key.trans e2.symm), ?_⟩
  have hlen := congrArg List.length (e1.trans (key.trans e2.symm))
  rw [List.length_map, List.length_map] at hlen
  exact hlen

/-- C4 witness: the same event list replayed at clock readings 0 and 7 keeps
speakers, texts and count identical. -/
theorem c4_replay_amended_witness :
    (runEvents initialLiveState
        [(RealtimeEvent.inputCompleted (some "hi") none, 0)]).transcripts.map
        (fun g => (g.speaker, g.text))
      = (runEvents initialLiveState
          [(RealtimeEvent.inputCompleted (some "hi") none, 7)]).transcripts.map
          (fun g => (g.speaker, g.text)) ∧
    (runEvents initialLiveState
        [(RealtimeEvent.inputCompleted (some "hi") none, 0)]).transcripts.length
      = (runEvents initialLiveState
          [(RealtimeEvent.inputCompleted (some "hi") none, 7)]).transcripts.length :=
  c4_replay_amended _ _ rfl

/-- C10: `stopStreaming` resets only the streaming-session state: the
provisional partial transcript is cleared, the streaming flag and status are
reset, while the finalized transcript list (and the error banner) are left
unchanged. -/
theorem c10_stopStreaming_frame (s : LiveState) :
    (stopStreaming s).transcripts = s.transcripts ∧
    (stopStreaming s).partialTranscript = "" ∧
    (stopStreaming s).isStreaming = false ∧
    (stopStreaming s).status = "Stopped" ∧
    (stopStreaming s).error = s.error :=
  ⟨rfl, rfl, rfl, rfl, rfl⟩

/-- C8: an `error` event only records the message for the presentation layer;
the finalized transcript list and the in-progress provisional partial text
are unchanged (neither finalized nor discarded), as are the streaming flag
and status. -/
theorem c8_error_event_frame (s : LiveState) (m : String) (t : Nat) :
    (wsOnMessage s (.errorEvent m) t).error = some m ∧
    (wsOnMessage s (.errorEvent m) t).transcripts = s.transcripts ∧
    (wsOnMessage s (.errorEvent m) t).partialTranscript = s.partialTranscript ∧
    (wsOnMessage s (.errorEvent m) t).isStreaming = s.isStreaming ∧
    (wsOnMessage s (.errorEvent m) t).status = s.status :=
  ⟨rfl, rfl, rfl, rfl, rfl⟩

/-- C7: the manual override `mergeAllSpeakers` relabels every transcript row
to "Speaker 1" unconditionally, preserves each row's identifier, text and
timestamps as well as the row order and the other result fields, and sets the
reported speaker count to 1; with no result present the click is a no-op. -/
theorem c7_mergeAllSpeakers (r : FileResult) :
    (mergeAllSpeakers r).transcripts.map (fun t => t.speaker)
      = List.replicate r.transcripts.length "Speaker 1" ∧
    (mergeAllSpeakers r).transcripts.map (fun t => (t.id, t.text, t.timestamp, t.endVal))
      = r.transcripts.map (fun t => (t.id, t.text, t.timestamp, t.endVal)) ∧
    (mergeAllSpeakers r).speakerCount = 1 ∧
    (mergeAllSpeakers r).summary = r.summary ∧
    (mergeAllSpeakers r).fullText = r.fullText ∧
    (mergeAllSpeakers r).duration = r.duration ∧
    mergeAllSpeakersClick none = none := by
  refine ⟨?_, ?_, rfl, rfl, rfl, rfl, rfl⟩
  · simp [mergeAllSpeakers, List.map_map, Function.comp_def, List.map_const']
  · simp [mergeAllSpeakers, List.map_map, Function.comp_def]

/-- C9: `getSpeakerColor` is total: on every speaker string (the empty string
included) the absolute value of the hash modulo the palette size is a valid
index, so the result is one of the six `SPEAKER_COLORS`; equal speaker
strings receive equal colors. -/
theorem c9_getSpeakerColor_total (s : String) :
    getSpeakerColor s ∈ SPEAKER_COLORS ∧
    (∀ t : String, s = t → getSpeakerColor s = getSpeakerColor t) := by
  constructor
  · have hlen : SPEAKER_COLORS.length = 6 := rfl
    have h : (speakerHash s).natAbs % SPEAKER_COLORS.length < SPEAKER_COLORS.length := by
      rw [hlen]; exact Nat.mod_lt _ (by norm_num)
    rw [getSpeakerColor, SPEAKER_COLORS.getD_eq_getElem "" h]
    exact SPEAKER_COLORS.getElem_mem h
  · intro t h
    rw [h]

/-- C9 witness: the empty speaker string is hashed to a valid palette entry,
and equal strings get equal colors. -/
theorem c9_getSpeakerColor_total_witness :
    getSpeakerColor "" ∈ SPEAKER_COLORS ∧ getSpeakerColor "" = getSpeakerColor "" :=
  ⟨(c9_getSpeakerColor_total "").1, (c9_getSpeakerColor_total "").2 "" rfl⟩

/-- C6 (bug evaluation): on a finalized segment followed by a provisional
(partial) item — exactly the shape the live component displays — the code
pushes the `current` group object, keeps mutating it, and pushes it again at
the end, so the group of the finalized segment appears twice: the output has
three groups and flattening their member segments yields
`[liveSeg, liveProvisional, liveSeg]`, not the input list. -/
theorem c6_duplicate_group_eval :
    (groupConsecutiveSpeakers [liveSeg, liveProvisional]).length = 3 ∧
    ((groupConsecutiveSpeakers [liveSeg, liveProvisional]).map
        (fun g => g.segments)).flatten = [liveSeg, liveProvisional, liveSeg] ∧
    ((groupConsecutiveSpeakers [liveSeg, liveProvisional]).map
        (fun g => g.segments)).flatten ≠ [liveSeg, liveProvisional] := by
  refine ⟨by decide, by decide, by decide⟩

end SpeechToText
